import Mathlib

/-!
# Verification of the Rotkelchen balance-aggregation core

A shallow embedding of `src/rotkelchen/rotkelchen.py`: the balance
aggregation and valuation engine (`query_balances`), the exchange
registration operation (`setup_exchange`) and the periodic main loop
(`main_loop`), together with proofs of the specified invariants.

Decimal (`FVal`) values are modelled as rationals.  Python dicts are
modelled as association lists (insertion order, no duplicate keys in
well-formed inputs).  Helpers that live in modules of this repository
not present under `src/` (`rotkelchen/utils.py`, `rotkelchen/fval.py`)
are modelled from the spec and carry a doc comment saying so.
A raised exception that propagates out of an operation is modelled by
the operation returning `none`.
-/

namespace Rotkelchen

/-- One balance entry: the `{amount, usd_value}` dict used by the
per-source balance maps (`rotkelchen.py:170-173`). -/
structure Balance where
  amount : ℚ
  usd_value : ℚ
deriving DecidableEq, Repr

/-- A per-source balance map: asset symbol to `Balance`, as an
association list (a Python dict in insertion order). -/
abbrev SrcMap := List (String × Balance)

/-- The key list of a balance map. -/
def keysOf (m : SrcMap) : List String := m.map Prod.fst

/-- Dict lookup on an association list (first binding wins, as in a
Python dict, which cannot hold duplicate keys). -/
def alookup {β : Type} : List (String × β) → String → Option β
  | [], _ => none
  | (k, b) :: t, a => if a = k then some b else alookup t a

/-- Duplicate removal for the combined key set (a Python dict key view
has no duplicates; the key order is immaterial to every claim). -/
def dedupKeys : List String → List String
  | [] => []
  | a :: t => if a ∈ dedupKeys t then dedupKeys t else a :: dedupKeys t

/-- Modelled from the spec: `dict_get_sumof` (`rotkelchen/utils.py`, not
under `src/`), as called at `rotkelchen.py:186` with attribute
`'usd_value'`: the sum of the `usd_value` field over all entries of one
source's balance map. -/
def dict_get_sumof (m : SrcMap) : ℚ := (m.map (fun kv => kv.2.usd_value)).sum

/-- All asset keys of a list of sources, concatenated. -/
def allKeys : List SrcMap → List String
  | [] => []
  | s :: t => keysOf s ++ allKeys t

/-- The combined entry for one asset: amount and usd_value summed over
every source containing that asset. -/
def combineEntry (srcs : List SrcMap) (a : String) : Balance :=
  let contribs := srcs.filterMap (fun s => alookup s a)
  ⟨(contribs.map Balance.amount).sum, (contribs.map Balance.usd_value).sum⟩

/-- Modelled from the spec: `combine_stat_dicts` (`rotkelchen/utils.py`,
not under `src/`), called at `rotkelchen.py:185`: "For every asset symbol
that appears in at least one source, sums amount and usd_value across
all sources containing that asset, producing one CombinedBalances entry
per asset." -/
def combine_stat_dicts (srcs : List SrcMap) : SrcMap :=
  (dedupKeys (allKeys srcs)).map (fun a => (a, combineEntry srcs a))

/-- Modelled from the spec: division of `FVal` values
(`rotkelchen/fval.py`, not under `src/`).  Per the spec the division is
unguarded: dividing by zero raises, modelled as `none`. -/
def fdiv (a b : ℚ) : Option ℚ := if b = 0 then none else some (a / b)

/-- Modelled from the spec: `FVal.to_percentage`
(`rotkelchen/fval.py`, not under `src/`): a ratio expressed as a
percentage. -/
def to_percentage (q : ℚ) : ℚ := q * 100

/-- The `percent_change` value attached by the tax overlay: either the
literal string stored when `average_buy_value` is zero, or a numeric
percentage. -/
inductive PctChange where
  | str (s : String)
  | num (q : ℚ)
deriving DecidableEq, Repr

/-- One combined (per-asset) entry of the final snapshot: amount,
usd_value, percentage of net value, and the optional tax-overlay
fields (absent unless the overlay set them). -/
structure CEntry where
  amount : ℚ
  usd_value : ℚ
  percentage_of_net_value : ℚ
  tax_free_amount : Option ℚ := none
  average_buy_value : Option ℚ := none
  percent_change : Option PctChange := none
deriving DecidableEq, Repr

/-- One entry of the per-location breakdown (`rotkelchen.py:201-204`). -/
structure LEntry where
  usd_value : ℚ
  percentage_of_net_value : ℚ
deriving DecidableEq, Repr

/-- The portfolio snapshot returned by `query_balances`
(`result_dict = merge_dicts(combined, stats)`): the combined per-asset
entries, the `location` breakdown and `net_usd`.  The Python code keeps
the three components as disjoint keys of one dict; the structure keeps
them as fields. -/
structure Snapshot where
  combined : List (String × CEntry)
  location : List (String × LEntry)
  net_usd : ℚ
deriving DecidableEq, Repr

/-- The per-location loop of `query_balances` (`rotkelchen.py:198-204`):
for each `(name, total)` pair, `usd_value := total` and
`percentage_of_net_value := (total / net_usd).to_percentage()`.
The division is the unguarded `FVal` division: a zero `net_usd`
raises (`none`). -/
def mk_location : List (String × ℚ) → ℚ → Option (List (String × LEntry))
  | [], _ => some []
  | (n, t) :: rest, net =>
    (fdiv t net).bind (fun p =>
      (mk_location rest net).map (fun r => (n, ⟨t, to_percentage p⟩) :: r))

/-- The per-asset percentage loop of `query_balances`
(`rotkelchen.py:206-207`): attaches
`percentage_of_net_value = (usd_value / net_usd).to_percentage()` to
every combined entry.  Same unguarded division. -/
def mk_combined : List (String × Balance) → ℚ → Option (List (String × CEntry))
  | [], _ => some []
  | (a, b) :: rest, net =>
    (fdiv b.usd_value net).bind (fun p =>
      (mk_combined rest net).map (fun r =>
        (a, { amount := b.amount, usd_value := b.usd_value,
              percentage_of_net_value := to_percentage p }) :: r))

/-- One entry of the tax-accounting collaborator's `details` mapping:
`asset -> (tax_free_amount, average_buy_value)` (`rotkelchen.py:218`). -/
structure DEntry where
  asset : String
  tax_free_amount : ℚ
  average_buy_value : ℚ
deriving DecidableEq, Repr

/-- In-place update of the single binding of `k` in a dict
(`result_dict[asset][...] = ...` mutates the unique binding of a
Python dict). -/
def setEntry : List (String × CEntry) → String → CEntry → List (String × CEntry)
  | [], _, _ => []
  | (k', v') :: t, k, v => if k' = k then (k, v) :: t else (k', v') :: setEntry t k v

/-- The fields the tax overlay attaches to one combined entry
(`rotkelchen.py:222-231`), given the already-computed
`current_price = usd_value / amount`: `tax_free_amount`,
`average_buy_value`, and `percent_change` — the literal string `'INF'`
when `average_buy_value` is zero, otherwise
`((current_price - average_buy_value) / average_buy_value) * 100`. -/
def annotateEntry (ce : CEntry) (e : DEntry) (cp : ℚ) : CEntry :=
  { ce with
    tax_free_amount := some e.tax_free_amount,
    average_buy_value := some e.average_buy_value,
    percent_change := some (if e.average_buy_value = 0 then PctChange.str "INF"
      else PctChange.num (((cp - e.average_buy_value) / e.average_buy_value) * 100)) }

/-- One iteration of the overlay loop (`rotkelchen.py:218-231`): skip
assets absent from the dict; otherwise compute
`current_price = usd_value / amount` (unguarded `FVal` division — a
zero amount raises an error that is *not* an AttributeError, so it
propagates: `none`) and attach the overlay fields. -/
def apply_one (d : List (String × CEntry)) (e : DEntry) : Option (List (String × CEntry)) :=
  match alookup d e.asset with
  | none => some d
  | some ce =>
    (fdiv ce.usd_value ce.amount).map (fun cp => setEntry d e.asset (annotateEntry ce e cp))

/-- The overlay loop over a list of detail entries. -/
def apply_details (d : List (String × CEntry)) : List DEntry → Option (List (String × CEntry))
  | [] => some d
  | e :: rest => (apply_one d e).bind (fun d' => apply_details d' rest)

/-- The `try ... except AttributeError: pass` overlay step
(`rotkelchen.py:216-234`).  `errAfter = some k` models an
AttributeError raised after `k` detail entries were fully processed
(`k = 0`: the collaborator exposes no `details` at all); the exception
is swallowed and the partially annotated dict is kept.
`errAfter = none`: no AttributeError occurs and the loop runs to the
end. -/
def tax_overlay (d : List (String × CEntry)) (details : List DEntry)
    (errAfter : Option Nat) : Option (List (String × CEntry)) :=
  match errAfter with
  | none => apply_details d details
  | some k => apply_details d (details.take k)

/-- The inputs `query_balances` draws from its collaborators: the
balance maps returned by each connected exchange (in connected order),
the blockchain totals, the fiat bank balances, and the tax-accounting
collaborator's `details` together with the AttributeError point. -/
structure QBInput where
  exchanges : List (String × SrcMap)
  blockchain : SrcMap
  banks : SrcMap
  details : List DEntry
  errAfter : Option Nat
deriving DecidableEq, Repr

/-- The `balances` dict built at `rotkelchen.py:178-183`: one entry per
connected exchange, then `'blockchain'`, then `'banks'`. -/
def balancesOf (inp : QBInput) : List (String × SrcMap) :=
  inp.exchanges ++ [("blockchain", inp.blockchain), ("banks", inp.banks)]

/-- The source maps alone, in `balances` order. -/
def sourcesOf (inp : QBInput) : List SrcMap := (balancesOf inp).map Prod.snd

/-- Well-formedness matching Python dict semantics: source names are
distinct (`balances` is a dict) and each source map has distinct asset
keys (each source is a dict). -/
def QBInput.wf (inp : QBInput) : Prop :=
  ((balancesOf inp).map Prod.fst).Nodup ∧ ∀ s ∈ sourcesOf inp, (keysOf s).Nodup

instance (inp : QBInput) : Decidable inp.wf := by
  unfold QBInput.wf; infer_instance

/-- `query_balances` (`rotkelchen.py:177-236`): combine the per-source
maps, compute `net_usd` as the sum of `usd_value` over the combined
entries, build the per-location breakdown, attach each combined asset's
percentage of net value, then run the tax overlay.  Any raised error
(unguarded division by a zero `net_usd` or a zero amount) yields
`none`. -/
def query_balances (inp : QBInput) : Option Snapshot :=
  let balances := balancesOf inp
  let combined := combine_stat_dicts (balances.map Prod.snd)
  let net_usd := (combined.map (fun kv => kv.2.usd_value)).sum
  (mk_location (balances.map (fun kv => (kv.1, dict_get_sumof kv.2))) net_usd).bind (fun loc =>
    (mk_combined combined net_usd).bind (fun comb =>
      (tax_overlay comb inp.details inp.errAfter).map (fun comb2 => ⟨comb2, loc, net_usd⟩)))

/-- The mutable per-process state touched by `setup_exchange`: the
in-memory credential dict `secret_data`, whether `secret.json` still
exists, the file's contents, the `connected_exchanges` list, and the
four per-exchange client handles (a handle is the key/secret pair the
client was built from). -/
structure RState where
  secret_data : List (String × String)
  secret_file_present : Bool
  secret_file : List (String × String)
  connected_exchanges : List String
  kraken : Option (String × String)
  poloniex : Option (String × String)
  bittrex : Option (String × String)
  binance : Option (String × String)
deriving DecidableEq, Repr

/-- The closed set of supported exchange names
(`rotkelchen.py:268-295`). -/
def supported_exchanges : List String := ["kraken", "poloniex", "bittrex", "binance"]

/-- `setattr(self, name, exchange)` (`rotkelchen.py:305`) for a name in
the closed set. -/
def setHandle (s : RState) (name : String) (h : String × String) : RState :=
  if name = "kraken" then { s with kraken := some h }
  else if name = "poloniex" then { s with poloniex := some h }
  else if name = "bittrex" then { s with bittrex := some h }
  else if name = "binance" then { s with binance := some h }
  else s

/-- `setup_exchange(name, api_key, api_secret)`
(`rotkelchen.py:260-314`).  Checks, in the code's order: credential
already present in `secret_data`; `secret.json` missing; unsupported
name; then builds the candidate client and calls `validate_api_key()`
(external, passed as `validate`); on success it atomically sets the
handle, appends to `connected_exchanges`, inserts the two credential
keys and rewrites the file.  Returns the new state and the
`(ok, message)` pair. -/
def setup_exchange (validate : String → String → String → Bool × String)
    (s : RState) (name api_key api_secret : String) : RState × Bool × String :=
  if (name ++ "_api_key") ∈ s.secret_data.map Prod.fst then
    (s, false, "Exchange \x7b\x7d is already registered")
  else if s.secret_file_present = false then
    (s, false, "The secret file can not be found")
  else if name ∉ supported_exchanges then
    (s, false, "Attempted to register unsupported exchange " ++ name)
  else
    let vr := validate name api_key api_secret
    if vr.1 then
      let sd := s.secret_data ++ [(name ++ "_api_key", api_key), (name ++ "_secret", api_secret)]
      let s' := setHandle s name (api_key, api_secret)
      ({ s' with connected_exchanges := s'.connected_exchanges ++ [name],
                 secret_data := sd, secret_file := sd }, true, "")
    else
      (s, false, vr.2)

/-- The state one `main_loop` cycle reads: the configured
`sleep_secs` (`rotkelchen.py:66`), which clients are active (not
`None`), and which of them expose a `main_logic` periodic hook. -/
structure LoopCfg where
  sleep_secs : ℚ
  poloniex_active : Bool
  poloniex_has_hook : Bool
  kraken_active : Bool
  kraken_has_hook : Bool
  bittrex_active : Bool
  bittrex_has_hook : Bool
  binance_active : Bool
  binance_has_hook : Bool
deriving DecidableEq, Repr

/-- One cycle of `main_loop` (`rotkelchen.py:150-159`): call
`self.poloniex.main_logic()` if poloniex is not `None`, then
`self.kraken.main_logic()` if kraken is not `None`, then
`gevent.sleep(10)`.  An active client without the hook raises
AttributeError (`none`).  Returns the invoked client names in order and
the sleep duration. -/
def main_loop_cycle (c : LoopCfg) : Option (List String × ℚ) :=
  if c.poloniex_active ∧ ¬c.poloniex_has_hook then none
  else if c.kraken_active ∧ ¬c.kraken_has_hook then none
  else some ((if c.poloniex_active then ["poloniex"] else []) ++
             (if c.kraken_active then ["kraken"] else []), 10)

end Rotkelchen

namespace Rotkelchen

/-! ## Association-list helper lemmas -/

theorem lookup_cons_ite {β : Type} (a k : String) (b : β) (t : List (String × β)) :
    alookup ((k, b) :: t) a = if a = k then some b else alookup t a := rfl

theorem mem_dedupKeys (a : String) (l : List String) : a ∈ dedupKeys l ↔ a ∈ l := by
  induction l generalizing a with
  | nil => simp [dedupKeys]
  | cons x t ih =>
    simp only [dedupKeys]
    by_cases hx : x ∈ dedupKeys t
    · rw [if_pos hx, List.mem_cons, ih]
      have hxt : x ∈ t := (ih x).mp hx
      constructor
      · exact Or.inr
      · rintro (rfl | h)
        · exact hxt
        · exact h
    · rw [if_neg hx]
      simp [List.mem_cons, ih]

theorem nodup_dedupKeys (l : List String) : (dedupKeys l).Nodup := by
  induction l with
  | nil => simp [dedupKeys]
  | cons x t ih =>
    simp only [dedupKeys]
    by_cases hx : x ∈ dedupKeys t
    · rw [if_pos hx]
      exact ih
    · rw [if_neg hx]
      exact List.nodup_cons.mpr ⟨hx, ih⟩

theorem lookup_keyed_map (keys : List String) (f : String → Balance) (a : String) :
    alookup (keys.map (fun k => (k, f k))) a =
      if a ∈ keys then some (f a) else none := by
  induction keys with
  | nil => simp [alookup]
  | cons k t ih =>
    rw [List.map_cons, lookup_cons_ite]
    by_cases hak : a = k
    · simp [hak]
    · simp [hak, ih]

theorem lookup_eq_none_of_not_mem {β : Type} (a : String) (t : List (String × β))
    (h : a ∉ t.map Prod.fst) : alookup t a = none := by
  induction t with
  | nil => rfl
  | cons p t ih =>
    rw [show p = (p.1, p.2) from rfl, lookup_cons_ite]
    simp only [List.map_cons, List.mem_cons] at h
    push_neg at h
    simp [h.1, ih h.2]

theorem mem_allKeys (a : String) (srcs : List SrcMap) :
    a ∈ allKeys srcs ↔ ∃ s, s ∈ srcs ∧ a ∈ keysOf s := by
  induction srcs with
  | nil => simp [allKeys]
  | cons s t ih => simp [allKeys, ih]

theorem combine_lookup (srcs : List SrcMap) (a : String) :
    alookup (combine_stat_dicts srcs) a =
      if a ∈ dedupKeys (allKeys srcs) then some (combineEntry srcs a) else none :=
  lookup_keyed_map _ _ _

end Rotkelchen

namespace Rotkelchen

/-! ## Sum lemmas for the aggregation -/

/-- The `usd_value` of an optional contribution (0 when absent). -/
def optUsd : Option Balance → ℚ
  | none => 0
  | some b => b.usd_value

theorem filterMap_lookup_sum (srcs : List SrcMap) (a : String) :
    ((srcs.filterMap (fun s => alookup s a)).map Balance.usd_value).sum =
      (srcs.map (fun s => optUsd (alookup s a))).sum := by
  induction srcs with
  | nil => rfl
  | cons s t ih =>
    cases h : alookup s a <;> simp [List.filterMap_cons, h, optUsd, ih]

theorem sum_map_add_split {α : Type} (l : List α) (f g : α → ℚ) :
    (l.map (fun x => f x + g x)).sum = (l.map f).sum + (l.map g).sum := by
  induction l with
  | nil => simp
  | cons x t ih => simp only [List.map_cons, List.sum_cons, ih]; ring

theorem sum_comm_list {α β : Type} (xs : List α) (ys : List β) (f : α → β → ℚ) :
    (ys.map (fun b => (xs.map (fun x => f x b)).sum)).sum =
      (xs.map (fun x => (ys.map (fun b => f x b)).sum)).sum := by
  induction xs with
  | nil => simp
  | cons x t ih =>
    simp only [List.map_cons, List.sum_cons]
    rw [sum_map_add_split ys (fun b => f x b) (fun b => (t.map (fun x' => f x' b)).sum), ih]

theorem sum_map_ite (K : List String) (k : String) (c : ℚ) (g : String → ℚ)
    (hnd : K.Nodup) (hk : k ∈ K) (hg : g k = 0) :
    (K.map (fun a => if a = k then c else g a)).sum = c + (K.map g).sum := by
  induction K with
  | nil => cases hk
  | cons x t ih =>
    rcases List.mem_cons.mp hk with h | h
    · subst h
      have hxt : k ∉ t := (List.nodup_cons.mp hnd).1
      have ht : t.map (fun a => if a = k then c else g a) = t.map g := by
        apply List.map_congr_left
        intro a ha
        have : a ≠ k := fun hak => hxt (hak ▸ ha)
        simp [this]
      simp [ht, hg]
    · have hxk : x ≠ k := fun hxe => ((List.nodup_cons.mp hnd).1 (hxe ▸ h))
      have := ih (List.nodup_cons.mp hnd).2 h
      simp only [List.map_cons, List.sum_cons, hxk, if_false, this]
      ring

theorem sum_optUsd_eq (s : SrcMap) (K : List String)
    (hK : K.Nodup) (hs : (keysOf s).Nodup) (hsub : ∀ a ∈ keysOf s, a ∈ K) :
    (K.map (fun a => optUsd (alookup s a))).sum = dict_get_sumof s := by
  induction s with
  | nil =>
    have : K.map (fun a => optUsd (alookup ([] : SrcMap) a)) = K.map (fun _ => (0 : ℚ)) := by
      apply List.map_congr_left
      intro a _
      rfl
    rw [this]
    simp [dict_get_sumof]
  | cons p t ih =>
    obtain ⟨k, b⟩ := p
    have hk : k ∈ K := hsub k (by simp [keysOf])
    have hs' : (k :: keysOf t).Nodup := hs
    have hknot : k ∉ keysOf t := (List.nodup_cons.mp hs').1
    have ht : (keysOf t).Nodup := (List.nodup_cons.mp hs').2
    have hsubt : ∀ a ∈ keysOf t, a ∈ K := by
      intro a ha
      exact hsub a (by simp [keysOf] at ha ⊢; right; exact ha)
    have hmap : K.map (fun a => optUsd (alookup ((k, b) :: t) a)) =
        K.map (fun a => if a = k then b.usd_value else optUsd (alookup t a)) := by
      apply List.map_congr_left
      intro a _
      rw [lookup_cons_ite, apply_ite optUsd]
      rfl
    rw [hmap, sum_map_ite K k b.usd_value (fun a => optUsd (alookup t a)) hK hk
      (by simp [lookup_eq_none_of_not_mem k t hknot, optUsd]), ih ht hsubt]
    simp [dict_get_sumof]

theorem net_usd_eq_double_sum (srcs : List SrcMap) :
    ((combine_stat_dicts srcs).map (fun kv => kv.2.usd_value)).sum =
      ((dedupKeys (allKeys srcs)).map
        (fun a => (srcs.map (fun s => optUsd (alookup s a))).sum)).sum := by
  unfold combine_stat_dicts
  rw [List.map_map]
  congr 1
  apply List.map_congr_left
  intro a _
  simp [Function.comp, combineEntry, filterMap_lookup_sum]

/-- The heart of the location-sum invariant: the combined usd total
equals the sum of the per-source usd totals, for sources with distinct
asset keys. -/
theorem combined_sum_eq_sources_sum (srcs : List SrcMap)
    (h : ∀ s ∈ srcs, (keysOf s).Nodup) :
    ((combine_stat_dicts srcs).map (fun kv => kv.2.usd_value)).sum =
      (srcs.map dict_get_sumof).sum := by
  rw [net_usd_eq_double_sum,
    sum_comm_list srcs (dedupKeys (allKeys srcs)) (fun s a => optUsd (alookup s a))]
  apply congrArg
  apply List.map_congr_left
  intro s hsmem
  exact sum_optUsd_eq s (dedupKeys (allKeys srcs)) (nodup_dedupKeys _) (h s hsmem)
    (fun a ha => (mem_dedupKeys a _).mpr ((mem_allKeys a srcs).mpr ⟨s, hsmem, ha⟩))

end Rotkelchen

namespace Rotkelchen

/-! ## Shape-preservation lemmas -/

theorem fdiv_eq_some (a b c : ℚ) (h : fdiv a b = some c) : b ≠ 0 ∧ c = a / b := by
  unfold fdiv at h
  by_cases hb : b = 0
  · simp [hb] at h
  · simp [hb] at h
    exact ⟨hb, h.symm⟩

theorem mk_location_shape (l : List (String × ℚ)) (net : ℚ) (r : List (String × LEntry))
    (h : mk_location l net = some r) :
    r.map Prod.fst = l.map Prod.fst ∧ r.map (fun kv => kv.2.usd_value) = l.map Prod.snd := by
  induction l generalizing r with
  | nil =>
    simp only [mk_location, Option.some.injEq] at h
    subst h
    exact ⟨rfl, rfl⟩
  | cons p rest ih =>
    obtain ⟨n, t⟩ := p
    simp only [mk_location, Option.bind_eq_some, Option.map_eq_some'] at h
    obtain ⟨p', hp', r', hr', heq⟩ := h
    subst heq
    rcases ih r' hr' with ⟨ih1, ih2⟩
    exact ⟨by simp [ih1], by simp [ih2]⟩

theorem mk_combined_usd (l : List (String × Balance)) (net : ℚ)
    (r : List (String × CEntry)) (h : mk_combined l net = some r) :
    r.map (fun kv => kv.2.usd_value) = l.map (fun kv => kv.2.usd_value) := by
  induction l generalizing r with
  | nil =>
    simp only [mk_combined, Option.some.injEq] at h
    subst h
    rfl
  | cons p rest ih =>
    obtain ⟨a, b⟩ := p
    simp only [mk_combined, Option.bind_eq_some, Option.map_eq_some'] at h
    obtain ⟨p', hp', r', hr', heq⟩ := h
    subst heq
    simp [ih r' hr']

theorem setEntry_usd (d : List (String × CEntry)) (k : String) (v ce : CEntry)
    (hl : alookup d k = some ce) (hv : v.usd_value = ce.usd_value) :
    (setEntry d k v).map (fun kv => kv.2.usd_value) = d.map (fun kv => kv.2.usd_value) := by
  induction d with
  | nil => simp [alookup] at hl
  | cons p t ih =>
    obtain ⟨k', v'⟩ := p
    rw [lookup_cons_ite] at hl
    by_cases hk : k = k'
    · rw [if_pos hk] at hl
      injection hl with hce
      subst hce
      simp [setEntry, hk.symm, hv]
    · rw [if_neg hk] at hl
      have hk' : k' ≠ k := fun hx => hk hx.symm
      simp [setEntry, hk', ih hl]

theorem lookup_setEntry_self (d : List (String × CEntry)) (k : String) (v ce : CEntry)
    (hl : alookup d k = some ce) : alookup (setEntry d k v) k = some v := by
  induction d with
  | nil => simp [alookup] at hl
  | cons p t ih =>
    obtain ⟨k', v'⟩ := p
    rw [lookup_cons_ite] at hl
    by_cases hk : k = k'
    · have hk' : k' = k := hk.symm
      simp [setEntry, hk', lookup_cons_ite]
    · have hk' : k' ≠ k := fun hx => hk hx.symm
      rw [if_neg hk] at hl
      simp [setEntry, hk', lookup_cons_ite, hk, ih hl]

theorem apply_one_usd (d : List (String × CEntry)) (e : DEntry)
    (d' : List (String × CEntry)) (h : apply_one d e = some d') :
    d'.map (fun kv => kv.2.usd_value) = d.map (fun kv => kv.2.usd_value) := by
  unfold apply_one at h
  cases hl : alookup d e.asset with
  | none =>
    rw [hl] at h
    injection h with h
    subst h
    rfl
  | some ce =>
    rw [hl, Option.map_eq_some'] at h
    obtain ⟨cp, hcp, heq⟩ := h
    subst heq
    exact setEntry_usd d e.asset _ ce hl rfl

theorem apply_details_usd (es : List DEntry) (d d' : List (String × CEntry))
    (h : apply_details d es = some d') :
    d'.map (fun kv => kv.2.usd_value) = d.map (fun kv => kv.2.usd_value) := by
  induction es generalizing d with
  | nil =>
    simp only [apply_details, Option.some.injEq] at h
    subst h
    rfl
  | cons e rest ih =>
    simp only [apply_details, Option.bind_eq_some] at h
    obtain ⟨dm, hm, hrest⟩ := h
    rw [ih dm hrest, apply_one_usd d e dm hm]

theorem tax_overlay_usd (d : List (String × CEntry)) (details : List DEntry)
    (errAfter : Option Nat) (d' : List (String × CEntry))
    (h : tax_overlay d details errAfter = some d') :
    d'.map (fun kv => kv.2.usd_value) = d.map (fun kv => kv.2.usd_value) := by
  unfold tax_overlay at h
  cases errAfter with
  | none => exact apply_details_usd _ _ _ h
  | some k => exact apply_details_usd _ _ _ h

/-- Inversion of a successful `query_balances` run into its three
stages. -/
theorem query_balances_inv (inp : QBInput) (snap : Snapshot)
    (h : query_balances inp = some snap) :
    ∃ loc comb,
      mk_location ((balancesOf inp).map (fun kv => (kv.1, dict_get_sumof kv.2)))
        (((combine_stat_dicts (sourcesOf inp)).map (fun kv => kv.2.usd_value)).sum) = some loc ∧
      mk_combined (combine_stat_dicts (sourcesOf inp))
        (((combine_stat_dicts (sourcesOf inp)).map (fun kv => kv.2.usd_value)).sum) = some comb ∧
      tax_overlay comb inp.details inp.errAfter = some snap.combined ∧
      snap.location = loc ∧
      snap.net_usd = ((combine_stat_dicts (sourcesOf inp)).map (fun kv => kv.2.usd_value)).sum := by
  unfold sourcesOf
  unfold query_balances at h
  simp only [Option.bind_eq_some, Option.map_eq_some'] at h
  obtain ⟨loc, hloc, comb, hcomb, comb2, hover, hsnap⟩ := h
  subst hsnap
  exact ⟨loc, comb, hloc, hcomb, hover, rfl, rfl⟩

end Rotkelchen

namespace Rotkelchen

/-! ## Claim C1: net_usd equals the sum of usd_value over combined assets -/

/-- C1: for every input, the `net_usd` field of the snapshot returned by
`query_balances` equals the sum of `usd_value` over all combined
(per-asset) entries of that snapshot. -/
theorem query_balances_net_usd_eq_sum_combined (inp : QBInput) (snap : Snapshot)
    (h : query_balances inp = some snap) :
    snap.net_usd = (snap.combined.map (fun kv => kv.2.usd_value)).sum := by
  obtain ⟨loc, comb, hloc, hcomb, hover, hl, hn⟩ := query_balances_inv inp snap h
  rw [hn, tax_overlay_usd comb inp.details inp.errAfter snap.combined hover,
    mk_combined_usd _ _ comb hcomb]

/-- A concrete `query_balances` input: one connected exchange holding
BTC, one blockchain asset, one fiat bank balance. -/
def qbIn1 : QBInput :=
  { exchanges := [("kraken", [("BTC", ⟨1, 300⟩)])],
    blockchain := [("ETH", ⟨1, 100⟩)],
    banks := [("USD", ⟨100, 100⟩)],
    details := [],
    errAfter := none }

/-- The snapshot `query_balances` returns on `qbIn1`. -/
def qbSnap1 : Snapshot :=
  { combined := [("BTC", { amount := 1, usd_value := 300, percentage_of_net_value := 60 }),
                 ("ETH", { amount := 1, usd_value := 100, percentage_of_net_value := 20 }),
                 ("USD", { amount := 100, usd_value := 100, percentage_of_net_value := 20 })],
    location := [("kraken", ⟨300, 60⟩), ("blockchain", ⟨100, 20⟩), ("banks", ⟨100, 20⟩)],
    net_usd := 500 }

/-- The concrete run of `query_balances` on `qbIn1`. -/
theorem qbRun1 : query_balances qbIn1 = some qbSnap1 := by
  have hcomb : combine_stat_dicts ((balancesOf qbIn1).map Prod.snd) =
      [("BTC", ⟨1, 300⟩), ("ETH", ⟨1, 100⟩), ("USD", ⟨100, 100⟩)] := by
    simp [combine_stat_dicts, balancesOf, qbIn1, allKeys, keysOf, dedupKeys, combineEntry,
      alookup, List.filterMap_cons]
  have hnet : (([("BTC", (⟨1, 300⟩ : Balance)), ("ETH", ⟨1, 100⟩),
      ("USD", ⟨100, 100⟩)].map (fun kv => kv.2.usd_value)).sum : ℚ) = 500 := by
    norm_num
  simp only [query_balances, hcomb, hnet]
  have hloc : mk_location ((balancesOf qbIn1).map (fun kv => (kv.1, dict_get_sumof kv.2))) 500 =
      some [("kraken", ⟨300, 60⟩), ("blockchain", ⟨100, 20⟩), ("banks", ⟨100, 20⟩)] := by
    simp [mk_location, balancesOf, qbIn1, dict_get_sumof, fdiv, to_percentage]
    norm_num
  have hcombp : mk_combined [("BTC", (⟨1, 300⟩ : Balance)), ("ETH", ⟨1, 100⟩),
      ("USD", ⟨100, 100⟩)] 500 =
      some [("BTC", { amount := 1, usd_value := 300, percentage_of_net_value := 60 }),
            ("ETH", { amount := 1, usd_value := 100, percentage_of_net_value := 20 }),
            ("USD", { amount := 100, usd_value := 100, percentage_of_net_value := 20 })] := by
    simp [mk_combined, fdiv, to_percentage]
    norm_num
  rw [hloc, hcombp]
  simp [tax_overlay, apply_details, qbIn1, qbSnap1]

/-- Witness for C1 at `qbIn1`. -/
theorem query_balances_net_usd_eq_sum_combined_witness :
    qbSnap1.net_usd = (qbSnap1.combined.map (fun kv => kv.2.usd_value)).sum :=
  query_balances_net_usd_eq_sum_combined qbIn1 qbSnap1 qbRun1

/-! ## Claim C2: the sum of per-location usd_value equals net_usd -/

/-- C2: for every well-formed input (each source map and the source-name
list are duplicate-free, as Python dicts are), the sum of the
`usd_value` entries of the snapshot's location breakdown equals
`net_usd`. -/
theorem query_balances_location_sum_eq_net_usd (inp : QBInput) (snap : Snapshot)
    (hwf : inp.wf) (h : query_balances inp = some snap) :
    (snap.location.map (fun kv => kv.2.usd_value)).sum = snap.net_usd := by
  obtain ⟨loc, comb, hloc, hcomb, hover, hl, hn⟩ := query_balances_inv inp snap h
  rw [hl, hn, (mk_location_shape _ _ loc hloc).2, List.map_map]
  have hcomp : ((balancesOf inp).map (Prod.snd ∘ fun kv => (kv.1, dict_get_sumof kv.2))) =
      ((balancesOf inp).map Prod.snd).map dict_get_sumof := by
    rw [List.map_map]
    rfl
  rw [hcomp, ← combined_sum_eq_sources_sum ((balancesOf inp).map Prod.snd) hwf.2]
  rfl

/-- The same concrete input for the C2 witness. -/
def qbIn2 : QBInput :=
  { exchanges := [("kraken", [("BTC", ⟨1, 300⟩)])],
    blockchain := [("ETH", ⟨1, 100⟩)],
    banks := [("USD", ⟨100, 100⟩)],
    details := [],
    errAfter := none }

/-- The snapshot `query_balances` returns on `qbIn2`. -/
def qbSnap2 : Snapshot :=
  { combined := [("BTC", { amount := 1, usd_value := 300, percentage_of_net_value := 60 }),
                 ("ETH", { amount := 1, usd_value := 100, percentage_of_net_value := 20 }),
                 ("USD", { amount := 100, usd_value := 100, percentage_of_net_value := 20 })],
    location := [("kraken", ⟨300, 60⟩), ("blockchain", ⟨100, 20⟩), ("banks", ⟨100, 20⟩)],
    net_usd := 500 }

/-- The concrete run of `query_balances` on `qbIn2`. -/
theorem qbRun2 : query_balances qbIn2 = some qbSnap2 := by
  have hcomb : combine_stat_dicts ((balancesOf qbIn2).map Prod.snd) =
      [("BTC", ⟨1, 300⟩), ("ETH", ⟨1, 100⟩), ("USD", ⟨100, 100⟩)] := by
    simp [combine_stat_dicts, balancesOf, qbIn2, allKeys, keysOf, dedupKeys, combineEntry,
      alookup, List.filterMap_cons]
  have hnet : (([("BTC", (⟨1, 300⟩ : Balance)), ("ETH", ⟨1, 100⟩),
      ("USD", ⟨100, 100⟩)].map (fun kv => kv.2.usd_value)).sum : ℚ) = 500 := by
    norm_num
  simp only [query_balances, hcomb, hnet]
  have hloc : mk_location ((balancesOf qbIn2).map (fun kv => (kv.1, dict_get_sumof kv.2))) 500 =
      some [("kraken", ⟨300, 60⟩), ("blockchain", ⟨100, 20⟩), ("banks", ⟨100, 20⟩)] := by
    simp [mk_location, balancesOf, qbIn2, dict_get_sumof, fdiv, to_percentage]
    norm_num
  have hcombp : mk_combined [("BTC", (⟨1, 300⟩ : Balance)), ("ETH", ⟨1, 100⟩),
      ("USD", ⟨100, 100⟩)] 500 =
      some [("BTC", { amount := 1, usd_value := 300, percentage_of_net_value := 60 }),
            ("ETH", { amount := 1, usd_value := 100, percentage_of_net_value := 20 }),
            ("USD", { amount := 100, usd_value := 100, percentage_of_net_value := 20 })] := by
    simp [mk_combined, fdiv, to_percentage]
    norm_num
  rw [hloc, hcombp]
  simp [tax_overlay, apply_details, qbIn2, qbSnap2]

/-- `qbIn2` is well-formed. -/
theorem qbIn2_wf : qbIn2.wf := by
  constructor
  · simp [balancesOf, qbIn2]
  · intro s hs
    simp [sourcesOf, balancesOf, qbIn2] at hs
    rcases hs with h | h | h <;> subst h <;> simp [keysOf]

/-- Witness for C2 at `qbIn2`. -/
theorem query_balances_location_sum_eq_net_usd_witness :
    (qbSnap2.location.map (fun kv => kv.2.usd_value)).sum = qbSnap2.net_usd :=
  query_balances_location_sum_eq_net_usd qbIn2 qbSnap2 qbIn2_wf qbRun2

end Rotkelchen

namespace Rotkelchen

/-! ## Claim C3: the aggregation is invariant under permutation of the sources -/

theorem combineEntry_perm (l l' : List SrcMap) (h : l.Perm l') (a : String) :
    combineEntry l a = combineEntry l' a := by
  have hp : (l.filterMap (fun s => alookup s a)).Perm (l'.filterMap (fun s => alookup s a)) :=
    h.filterMap _
  simp only [combineEntry]
  congr 1
  · exact (hp.map Balance.amount).sum_eq
  · exact (hp.map Balance.usd_value).sum_eq

/-- C3: for every non-empty list of source balance maps, the combined
per-asset totals produced by `combine_stat_dicts` are the same, asset by
asset, for every permutation of the source list. -/
theorem combine_stat_dicts_perm_invariant (l l' : List SrcMap)
    (hne : l ≠ []) (h : l.Perm l') (a : String) :
    alookup (combine_stat_dicts l) a = alookup (combine_stat_dicts l') a := by
  rw [combine_lookup, combine_lookup]
  have htrans : a ∈ dedupKeys (allKeys l) ↔ a ∈ dedupKeys (allKeys l') := by
    rw [mem_dedupKeys, mem_dedupKeys, mem_allKeys, mem_allKeys]
    constructor
    · rintro ⟨s, hs, hb⟩
      exact ⟨s, h.mem_iff.mp hs, hb⟩
    · rintro ⟨s, hs, hb⟩
      exact ⟨s, h.mem_iff.mpr hs, hb⟩
  by_cases hin : a ∈ dedupKeys (allKeys l)
  · rw [if_pos hin, if_pos (htrans.mp hin), combineEntry_perm l l' h a]
  · rw [if_neg hin, if_neg (fun hc => hin (htrans.mpr hc))]

/-- A concrete source list and a permutation of it. -/
def permIn1 : List SrcMap := [[("BTC", ⟨1, 2⟩)], [("ETH", ⟨3, 4⟩)], [("BTC", ⟨5, 6⟩)]]

/-- `permIn1` with its first and last sources exchanged. -/
def permIn2 : List SrcMap := [[("BTC", ⟨5, 6⟩)], [("ETH", ⟨3, 4⟩)], [("BTC", ⟨1, 2⟩)]]

/-- Witness for C3: the two runs agree on the shared asset. -/
theorem combine_stat_dicts_perm_invariant_witness :
    alookup (combine_stat_dicts permIn1) "BTC" = alookup (combine_stat_dicts permIn2) "BTC" :=
  combine_stat_dicts_perm_invariant permIn1 permIn2 (by simp [permIn1])
    (by decide) "BTC"

/-! ## Claim C9: the location breakdown always has blockchain and banks -/

/-- C9: every snapshot returned by `query_balances` has a `'blockchain'`
and a `'banks'` entry in its location breakdown, however many exchanges
are connected (including none). -/
theorem query_balances_location_has_blockchain_and_banks (inp : QBInput) (snap : Snapshot)
    (h : query_balances inp = some snap) :
    "blockchain" ∈ snap.location.map Prod.fst ∧ "banks" ∈ snap.location.map Prod.fst := by
  obtain ⟨loc, comb, hloc, hcomb, hover, hl, hn⟩ := query_balances_inv inp snap h
  rw [hl, (mk_location_shape _ _ loc hloc).1, List.map_map]
  have hfst : (balancesOf inp).map (Prod.fst ∘ fun kv => (kv.1, dict_get_sumof kv.2)) =
      (balancesOf inp).map Prod.fst := by
    apply List.map_congr_left
    intro x _
    rfl
  rw [hfst]
  unfold balancesOf
  constructor <;> simp

/-- A no-exchange input for the C9 witness. -/
def qbIn9 : QBInput :=
  { exchanges := [], blockchain := [("ETH", ⟨2, 250⟩)], banks := [("USD", ⟨250, 250⟩)],
    details := [], errAfter := none }

/-- The snapshot `query_balances` returns on `qbIn9`. -/
def qbSnap9 : Snapshot :=
  { combined := [("ETH", { amount := 2, usd_value := 250, percentage_of_net_value := 50 }),
                 ("USD", { amount := 250, usd_value := 250, percentage_of_net_value := 50 })],
    location := [("blockchain", ⟨250, 50⟩), ("banks", ⟨250, 50⟩)],
    net_usd := 500 }

/-- The concrete run of `query_balances` on `qbIn9`. -/
theorem qbRun9 : query_balances qbIn9 = some qbSnap9 := by
  have hcomb : combine_stat_dicts ((balancesOf qbIn9).map Prod.snd) =
      [("ETH", ⟨2, 250⟩), ("USD", ⟨250, 250⟩)] := by
    simp [combine_stat_dicts, balancesOf, qbIn9, allKeys, keysOf, dedupKeys, combineEntry,
      alookup, List.filterMap_cons]
  have hnet : (([("ETH", (⟨2, 250⟩ : Balance)),
      ("USD", ⟨250, 250⟩)].map (fun kv => kv.2.usd_value)).sum : ℚ) = 500 := by
    norm_num
  simp only [query_balances, hcomb, hnet]
  have hloc : mk_location ((balancesOf qbIn9).map (fun kv => (kv.1, dict_get_sumof kv.2))) 500 =
      some [("blockchain", ⟨250, 50⟩), ("banks", ⟨250, 50⟩)] := by
    simp [mk_location, balancesOf, qbIn9, dict_get_sumof, fdiv, to_percentage]
    norm_num
  have hcombp : mk_combined [("ETH", (⟨2, 250⟩ : Balance)), ("USD", ⟨250, 250⟩)] 500 =
      some [("ETH", { amount := 2, usd_value := 250, percentage_of_net_value := 50 }),
            ("USD", { amount := 250, usd_value := 250, percentage_of_net_value := 50 })] := by
    simp [mk_combined, fdiv, to_percentage]
    norm_num
  rw [hloc, hcombp]
  simp [tax_overlay, apply_details, qbIn9, qbSnap9]

/-- Witness for C9 at `qbIn9` (no connected exchanges). -/
theorem query_balances_location_has_blockchain_and_banks_witness :
    "blockchain" ∈ qbSnap9.location.map Prod.fst ∧ "banks" ∈ qbSnap9.location.map Prod.fst :=
  query_balances_location_has_blockchain_and_banks qbIn9 qbSnap9 qbRun9

end Rotkelchen

namespace Rotkelchen

/-! ## Claim C10: an AttributeError mid-overlay keeps the partial annotations -/

/-- An interrupted overlay is the same run as a normal overlay over the
prefix of detail entries processed before the exception. -/
theorem query_balances_take_eq (inp : QBInput) (k : Nat) (h : inp.errAfter = some k) :
    query_balances inp =
      query_balances { inp with details := inp.details.take k, errAfter := none } := by
  simp only [query_balances, balancesOf, tax_overlay, h]

/-- C10: if an AttributeError is raised after `k` detail entries of the
tax overlay were processed, `query_balances` still returns a snapshot
normally — exactly the snapshot of a normal run over only those first
`k` entries, so the assets annotated before the failure keep their
overlay fields and the result can be partially annotated. -/
theorem query_balances_attr_error_partial (inp : QBInput) (k : Nat) (snap : Snapshot)
    (h : inp.errAfter = some k)
    (hn : query_balances { inp with details := inp.details.take k, errAfter := none } =
      some snap) :
    query_balances inp = some snap := by
  rw [query_balances_take_eq inp k h]
  exact hn

/-- An input whose overlay is interrupted by an AttributeError after the
first of two detail entries. -/
def qbIn10 : QBInput :=
  { exchanges := [("kraken", [("BTC", ⟨1, 10000⟩)])],
    blockchain := [],
    banks := [("USD", ⟨500, 500⟩)],
    details := [⟨"BTC", 0, 8000⟩, ⟨"USD", 1, 2⟩],
    errAfter := some 1 }

/-- The partially annotated snapshot: BTC carries the overlay fields,
USD does not. -/
def qbSnap10 : Snapshot :=
  { combined := [("BTC", { amount := 1, usd_value := 10000,
                           percentage_of_net_value := 2000/21,
                           tax_free_amount := some 0, average_buy_value := some 8000,
                           percent_change := some (PctChange.num 25) }),
                 ("USD", { amount := 500, usd_value := 500,
                           percentage_of_net_value := 100/21 })],
    location := [("kraken", ⟨10000, 2000/21⟩), ("blockchain", ⟨0, 0⟩),
                 ("banks", ⟨500, 100/21⟩)],
    net_usd := 10500 }

/-- The normal run over the one-entry detail prefix of `qbIn10`. -/
theorem qbRun10 :
    query_balances { qbIn10 with details := qbIn10.details.take 1, errAfter := none } =
      some qbSnap10 := by
  have hcomb : combine_stat_dicts ((balancesOf { qbIn10 with
      details := qbIn10.details.take 1, errAfter := none }).map Prod.snd) =
      [("BTC", ⟨1, 10000⟩), ("USD", ⟨500, 500⟩)] := by
    simp [combine_stat_dicts, balancesOf, qbIn10, allKeys, keysOf, dedupKeys, combineEntry,
      alookup, List.filterMap_cons]
  have hnet : (([("BTC", (⟨1, 10000⟩ : Balance)),
      ("USD", ⟨500, 500⟩)].map (fun kv => kv.2.usd_value)).sum : ℚ) = 10500 := by
    norm_num
  simp only [query_balances, hcomb, hnet]
  have hloc : mk_location ((balancesOf { qbIn10 with
      details := qbIn10.details.take 1, errAfter := none }).map
        (fun kv => (kv.1, dict_get_sumof kv.2))) 10500 =
      some [("kraken", ⟨10000, 2000/21⟩), ("blockchain", ⟨0, 0⟩), ("banks", ⟨500, 100/21⟩)] := by
    simp [mk_location, balancesOf, qbIn10, dict_get_sumof, fdiv, to_percentage]
    norm_num
  have hcombp : mk_combined [("BTC", (⟨1, 10000⟩ : Balance)), ("USD", ⟨500, 500⟩)] 10500 =
      some [("BTC", { amount := 1, usd_value := 10000,
                      percentage_of_net_value := 2000/21 }),
            ("USD", { amount := 500, usd_value := 500,
                      percentage_of_net_value := 100/21 })] := by
    simp [mk_combined, fdiv, to_percentage]
    norm_num
  rw [hloc, hcombp]
  simp [tax_overlay, apply_details, apply_one, alookup, fdiv, annotateEntry, setEntry,
    qbIn10, qbSnap10]
  norm_num

/-- Witness for C10 at `qbIn10`: the interrupted call returns the
partially annotated snapshot. -/
theorem query_balances_attr_error_partial_witness :
    query_balances qbIn10 = some qbSnap10 :=
  query_balances_attr_error_partial qbIn10 1 qbSnap10 rfl qbRun10

/-! ## Claim C4: a failed validation leaves all state untouched -/

/-- C4: when the candidate client's `validate_api_key()` reports
failure, `setup_exchange` returns `(false, message)` and the whole
state — credential dict, file, connected list and the four client
handles — is exactly the state before the call. -/
theorem setup_exchange_validation_failure_preserves_state
    (validate : String → String → String → Bool × String)
    (s : RState) (name api_key api_secret msg : String)
    (h1 : (name ++ "_api_key") ∉ s.secret_data.map Prod.fst)
    (h2 : s.secret_file_present = true)
    (h3 : name ∈ supported_exchanges)
    (h4 : validate name api_key api_secret = (false, msg)) :
    setup_exchange validate s name api_key api_secret = (s, false, msg) := by
  unfold setup_exchange
  rw [if_neg h1, if_neg (by simp [h2]), if_neg (by simp [h3])]
  simp [h4]

/-- A validator that always rejects. -/
def valReject : String → String → String → Bool × String := fun _ _ _ => (false, "bad key")

/-- A starting state with no credentials and no connected exchanges. -/
def rstate0 : RState :=
  { secret_data := [], secret_file_present := true, secret_file := [],
    connected_exchanges := [], kraken := none, poloniex := none, bittrex := none,
    binance := none }

/-- Witness for C4: a rejected kraken registration changes nothing. -/
theorem setup_exchange_validation_failure_preserves_state_witness :
    setup_exchange valReject rstate0 "kraken" "k" "s" = (rstate0, false, "bad key") :=
  setup_exchange_validation_failure_preserves_state valReject rstate0 "kraken" "k" "s"
    "bad key" (by simp [rstate0]) rfl (by simp [supported_exchanges]) rfl

end Rotkelchen

namespace Rotkelchen

/-! ## Claim C5: unsupported exchange names -/

/-- A validator that always accepts (never reached on these inputs). -/
def valAccept : String → String → String → Bool × String := fun _ _ _ => (true, "")

/-- A reachable state: the user's `secret.json` contained keys under an
unsupported name, and startup loads the file verbatim into
`secret_data` (`rotkelchen.py:70-78`). -/
def rstate5 : RState :=
  { secret_data := [("unknown_api_key", "x"), ("unknown_secret", "y")],
    secret_file_present := true,
    secret_file := [("unknown_api_key", "x"), ("unknown_secret", "y")],
    connected_exchanges := [], kraken := none, poloniex := none, bittrex := none,
    binance := none }

/-- Counterexample to C5 as stated: `"unknown"` lies outside the closed
set, yet `setup_exchange` does not fail with the UnsupportedExchange
message — the already-registered check runs first
(`rotkelchen.py:261-262`). -/
theorem setup_exchange_unsupported_counterexample :
    "unknown" ∉ supported_exchanges ∧
    (setup_exchange valAccept rstate5 "unknown" "k" "s").2 =
      (false, "Exchange \x7b\x7d is already registered") ∧
    (setup_exchange valAccept rstate5 "unknown" "k" "s").2.2 ≠
      "Attempted to register unsupported exchange unknown" := by
  refine ⟨by simp [supported_exchanges], ?_, by simp [setup_exchange, rstate5]⟩
  simp [setup_exchange, rstate5]

/-- C5 (amended): for every name outside the closed set the call fails
and the state — in particular the connected-exchange list — is exactly
unchanged; the failure message is the UnsupportedExchange one provided
no credential under that name is already stored and the secret file is
present (those two checks run first). -/
theorem setup_exchange_unsupported_amended
    (validate : String → String → String → Bool × String)
    (s : RState) (name api_key api_secret : String)
    (hname : name ∉ supported_exchanges) :
    ((setup_exchange validate s name api_key api_secret).1 = s ∧
     (setup_exchange validate s name api_key api_secret).2.1 = false) ∧
    ((name ++ "_api_key") ∉ s.secret_data.map Prod.fst → s.secret_file_present = true →
      (setup_exchange validate s name api_key api_secret).2.2 =
        "Attempted to register unsupported exchange " ++ name) := by
  unfold setup_exchange
  by_cases h1 : (name ++ "_api_key") ∈ s.secret_data.map Prod.fst
  · rw [if_pos h1]
    exact ⟨⟨rfl, rfl⟩, fun hc _ => absurd h1 hc⟩
  · rw [if_neg h1]
    by_cases h2 : s.secret_file_present = false
    · rw [if_pos h2]
      refine ⟨⟨rfl, rfl⟩, fun _ hp => ?_⟩
      rw [hp] at h2
      cases h2
    · rw [if_neg h2, if_pos hname]
      exact ⟨⟨rfl, rfl⟩, fun _ _ => rfl⟩

/-- A fresh state for the C5 witness. -/
def rstate5w : RState :=
  { secret_data := [], secret_file_present := true, secret_file := [],
    connected_exchanges := [], kraken := none, poloniex := none, bittrex := none,
    binance := none }

/-- Witness for the amended C5 at a fresh state. -/
theorem setup_exchange_unsupported_amended_witness :
    (((setup_exchange valAccept rstate5w "unknown" "k" "s").1 = rstate5w ∧
      (setup_exchange valAccept rstate5w "unknown" "k" "s").2.1 = false) ∧
     (("unknown" ++ "_api_key") ∉ rstate5w.secret_data.map Prod.fst →
       rstate5w.secret_file_present = true →
       (setup_exchange valAccept rstate5w "unknown" "k" "s").2.2 =
         "Attempted to register unsupported exchange " ++ "unknown")) :=
  setup_exchange_unsupported_amended valAccept rstate5w "unknown" "k" "s"
    (by simp [supported_exchanges])

/-! ## Claim C7: the main-loop cycle -/

/-- A configuration with every client active and exposing a hook, and a
configured interval of 5. -/
def cfg7 : LoopCfg :=
  { sleep_secs := 5, poloniex_active := true, poloniex_has_hook := true,
    kraken_active := true, kraken_has_hook := true, bittrex_active := true,
    bittrex_has_hook := true, binance_active := true, binance_has_hook := true }

/-- Counterexample to C7 as stated: with all four clients active and
exposing hooks and a configured interval of 5, the cycle invokes only
poloniex and kraken and sleeps 10, not the configured interval. -/
theorem main_loop_cycle_counterexample :
    cfg7.bittrex_active = true ∧ cfg7.bittrex_has_hook = true ∧
    cfg7.binance_active = true ∧ cfg7.binance_has_hook = true ∧
    cfg7.sleep_secs = 5 ∧
    main_loop_cycle cfg7 = some (["poloniex", "kraken"], 10) ∧
    "bittrex" ∉ (["poloniex", "kraken"] : List String) ∧
    "binance" ∉ (["poloniex", "kraken"] : List String) ∧
    (10 : ℚ) ≠ 5 := by
  refine ⟨rfl, rfl, rfl, rfl, rfl, ?_, by simp, by simp, by norm_num⟩
  simp [main_loop_cycle, cfg7]

/-- C7 (amended): each cycle invokes exactly the poloniex hook (when
poloniex is active) followed by the kraken hook (when kraken is
active) — bittrex and binance hooks are never invoked — and then
suspends for the hardcoded 10 time units, ignoring the configured
interval. -/
theorem main_loop_cycle_amended (c : LoopCfg) (r : List String × ℚ)
    (h : main_loop_cycle c = some r) :
    r.1 = (if c.poloniex_active then ["poloniex"] else []) ++
          (if c.kraken_active then ["kraken"] else []) ∧
    "bittrex" ∉ r.1 ∧ "binance" ∉ r.1 ∧ r.2 = 10 := by
  unfold main_loop_cycle at h
  by_cases h1 : c.poloniex_active ∧ ¬c.poloniex_has_hook
  · rw [if_pos h1] at h
    cases h
  · rw [if_neg h1] at h
    by_cases h2 : c.kraken_active ∧ ¬c.kraken_has_hook
    · rw [if_pos h2] at h
      cases h
    · rw [if_neg h2] at h
      injection h with h
      subst h
      refine ⟨rfl, ?_, ?_, rfl⟩
      · cases hp : c.poloniex_active <;> cases hk : c.kraken_active <;> simp
      · cases hp : c.poloniex_active <;> cases hk : c.kraken_active <;> simp

/-- Witness for the amended C7 at `cfg7`. -/
theorem main_loop_cycle_amended_witness :
    ((["poloniex", "kraken"] : List String), (10 : ℚ)).1 =
      (if cfg7.poloniex_active then ["poloniex"] else []) ++
      (if cfg7.kraken_active then ["kraken"] else []) ∧
    "bittrex" ∉ ((["poloniex", "kraken"] : List String), (10 : ℚ)).1 ∧
    "binance" ∉ ((["poloniex", "kraken"] : List String), (10 : ℚ)).1 ∧
    ((["poloniex", "kraken"] : List String), (10 : ℚ)).2 = 10 :=
  main_loop_cycle_amended cfg7 (["poloniex", "kraken"], 10) (by simp [main_loop_cycle, cfg7])

end Rotkelchen

namespace Rotkelchen

/-! ## Claim C6: the percent_change rule of the tax overlay -/

/-- Input whose detail entry has a zero average buy value. -/
def qbIn6 : QBInput :=
  { exchanges := [("kraken", [("BTC", ⟨1, 10000⟩)])],
    blockchain := [],
    banks := [("USD", ⟨500, 500⟩)],
    details := [⟨"USD", 1, 0⟩],
    errAfter := none }

/-- The snapshot returned on `qbIn6`: USD gets `percent_change = 'INF'`. -/
def qbSnap6 : Snapshot :=
  { combined := [("BTC", { amount := 1, usd_value := 10000,
                           percentage_of_net_value := 2000/21 }),
                 ("USD", { amount := 500, usd_value := 500,
                           percentage_of_net_value := 100/21,
                           tax_free_amount := some 1, average_buy_value := some 0,
                           percent_change := some (PctChange.str "INF") })],
    location := [("kraken", ⟨10000, 2000/21⟩), ("blockchain", ⟨0, 0⟩),
                 ("banks", ⟨500, 100/21⟩)],
    net_usd := 10500 }

/-- The concrete run of `query_balances` on `qbIn6`. -/
theorem qbRun6 : query_balances qbIn6 = some qbSnap6 := by
  have hcomb : combine_stat_dicts ((balancesOf qbIn6).map Prod.snd) =
      [("BTC", ⟨1, 10000⟩), ("USD", ⟨500, 500⟩)] := by
    simp [combine_stat_dicts, balancesOf, qbIn6, allKeys, keysOf, dedupKeys, combineEntry,
      alookup, List.filterMap_cons]
  have hnet : (([("BTC", (⟨1, 10000⟩ : Balance)),
      ("USD", ⟨500, 500⟩)].map (fun kv => kv.2.usd_value)).sum : ℚ) = 10500 := by
    norm_num
  simp only [query_balances, hcomb, hnet]
  have hloc : mk_location ((balancesOf qbIn6).map (fun kv => (kv.1, dict_get_sumof kv.2))) 10500 =
      some [("kraken", ⟨10000, 2000/21⟩), ("blockchain", ⟨0, 0⟩), ("banks", ⟨500, 100/21⟩)] := by
    simp [mk_location, balancesOf, qbIn6, dict_get_sumof, fdiv, to_percentage]
    norm_num
  have hcombp : mk_combined [("BTC", (⟨1, 10000⟩ : Balance)), ("USD", ⟨500, 500⟩)] 10500 =
      some [("BTC", { amount := 1, usd_value := 10000,
                      percentage_of_net_value := 2000/21 }),
            ("USD", { amount := 500, usd_value := 500,
                      percentage_of_net_value := 100/21 })] := by
    simp [mk_combined, fdiv, to_percentage]
    norm_num
  rw [hloc, hcombp]
  simp [tax_overlay, apply_details, apply_one, alookup, fdiv, annotateEntry, setEntry,
    qbIn6, qbSnap6]

/-- Counterexample to C6 as stated: with `average_buy_value = 0` the
overlay stores the string `'INF'`, not `"undefined"`. -/
theorem percent_change_undefined_counterexample :
    query_balances qbIn6 = some qbSnap6 ∧
    alookup qbSnap6.combined "USD" =
      some { amount := 500, usd_value := 500, percentage_of_net_value := 100/21,
             tax_free_amount := some 1, average_buy_value := some 0,
             percent_change := some (PctChange.str "INF") } ∧
    PctChange.str "INF" ≠ PctChange.str "undefined" :=
  ⟨qbRun6, by simp [qbSnap6, alookup], by simp⟩

theorem alookup_setEntry_ne (d : List (String × CEntry)) (k a : String) (v : CEntry)
    (hne : a ≠ k) : alookup (setEntry d k v) a = alookup d a := by
  induction d with
  | nil => rfl
  | cons p t ih =>
    obtain ⟨k', v'⟩ := p
    by_cases hk : k' = k
    · subst hk
      simp [setEntry, lookup_cons_ite, hne]
    · simp [setEntry, hk, lookup_cons_ite, ih]

theorem apply_one_lookup_ne (d d' : List (String × CEntry)) (e : DEntry) (a : String)
    (hne : a ≠ e.asset) (h : apply_one d e = some d') : alookup d' a = alookup d a := by
  unfold apply_one at h
  cases hl : alookup d e.asset with
  | none =>
    rw [hl] at h
    injection h with h
    subst h
    rfl
  | some ce =>
    rw [hl, Option.map_eq_some'] at h
    obtain ⟨cp, hcp, hset⟩ := h
    subst hset
    exact alookup_setEntry_ne d e.asset a _ hne

theorem apply_details_lookup_ne (es : List DEntry) (d d' : List (String × CEntry))
    (a : String) (hne : ∀ e ∈ es, a ≠ e.asset) (h : apply_details d es = some d') :
    alookup d' a = alookup d a := by
  induction es generalizing d with
  | nil =>
    simp only [apply_details, Option.some.injEq] at h
    subst h
    rfl
  | cons e rest ih =>
    simp only [apply_details, Option.bind_eq_some] at h
    obtain ⟨d₁, h₁, h₂⟩ := h
    rw [ih d₁ (fun f hf => hne f (by simp [hf])) h₂,
      apply_one_lookup_ne d d₁ e a (hne e (by simp)) h₁]

/-- The overlay loop, at any entry of a details list with distinct
asset keys (a Python dict is keyed by asset): if the asset is present
in the final dict, its binding is the annotation of its pre-overlay
binding by that entry. -/
theorem apply_details_lookup_mem (es : List DEntry) (e : DEntry) :
    (es.map DEntry.asset).Nodup → e ∈ es →
    ∀ d d' : List (String × CEntry), apply_details d es = some d' →
    ∀ ce : CEntry, alookup d' e.asset = some ce →
    ∃ ce₀ cp, alookup d e.asset = some ce₀ ∧
      fdiv ce₀.usd_value ce₀.amount = some cp ∧ ce = annotateEntry ce₀ e cp := by
  induction es with
  | nil =>
    intro _ he
    cases he
  | cons e' rest ih =>
    intro hnd he d d' h ce hce
    rw [List.map_cons] at hnd
    have hn1 : e'.asset ∉ rest.map DEntry.asset := (List.nodup_cons.mp hnd).1
    have hn2 : (rest.map DEntry.asset).Nodup := (List.nodup_cons.mp hnd).2
    simp only [apply_details, Option.bind_eq_some] at h
    obtain ⟨d₁, h₁, h₂⟩ := h
    rcases List.mem_cons.mp he with rfl | hmem
    · have hrest : ∀ f ∈ rest, e.asset ≠ f.asset := by
        intro f hf hEq
        exact hn1 (by rw [hEq]; exact List.mem_map_of_mem DEntry.asset hf)
      have htrans : alookup d' e.asset = alookup d₁ e.asset :=
        apply_details_lookup_ne rest d₁ d' e.asset hrest h₂
      rw [htrans] at hce
      unfold apply_one at h₁
      cases hl : alookup d e.asset with
      | none =>
        rw [hl] at h₁
        injection h₁ with h₁
        subst h₁
        rw [hl] at hce
        cases hce
      | some ce₀ =>
        rw [hl, Option.map_eq_some'] at h₁
        obtain ⟨cp, hcp, hset⟩ := h₁
        have hlook := lookup_setEntry_self d e.asset (annotateEntry ce₀ e cp) ce₀ hl
        rw [hset, hce] at hlook
        injection hlook with hlook
        exact ⟨ce₀, cp, rfl, hcp, hlook⟩
    · have hne : e.asset ≠ e'.asset := by
        intro hEq
        exact hn1 (by rw [← hEq]; exact List.mem_map_of_mem DEntry.asset hmem)
      obtain ⟨ce₀, cp, hce₀, hcp, hceq⟩ := ih hn2 hmem d₁ d' h₂ ce hce
      rw [apply_one_lookup_ne d d₁ e' e.asset hne h₁] at hce₀
      exact ⟨ce₀, cp, hce₀, hcp, hceq⟩

/-- C6 (amended): for every asset present in both the snapshot and the
collaborator's details (a mapping keyed by asset, so the detail entries
carry distinct assets), the overlay attaches the detail pair and sets
`percent_change` to the string `'INF'` when `average_buy_value` is zero
and otherwise to `((usd_value/amount − average_buy_value) /
average_buy_value) · 100` (e.g. usd_value 10000, amount 1, abv 8000
gives 25). -/
theorem tax_overlay_percent_change (inp : QBInput) (snap : Snapshot) (a : String)
    (tf abv : ℚ) (ce : CEntry)
    (hnd : (inp.details.map DEntry.asset).Nodup)
    (hd : (⟨a, tf, abv⟩ : DEntry) ∈ inp.details)
    (he : inp.errAfter = none)
    (h : query_balances inp = some snap)
    (hce : alookup snap.combined a = some ce) :
    ce.tax_free_amount = some tf ∧ ce.average_buy_value = some abv ∧
    ce.percent_change = some (if abv = 0 then PctChange.str "INF"
      else PctChange.num (((ce.usd_value / ce.amount - abv) / abv) * 100)) := by
  obtain ⟨loc, comb, hloc, hcomb, hover, hl, hn⟩ := query_balances_inv inp snap h
  rw [he] at hover
  have hover' : apply_details comb inp.details = some snap.combined := hover
  obtain ⟨ce₀, cp, hce₀, hcp, hceq⟩ :=
    apply_details_lookup_mem inp.details ⟨a, tf, abv⟩ hnd hd comb snap.combined hover' ce hce
  obtain ⟨hne0, hcpv⟩ := fdiv_eq_some _ _ _ hcp
  subst hceq
  refine ⟨rfl, rfl, ?_⟩
  simp only [annotateEntry, hcpv]

/-- Input matching the spec's worked example — BTC bought at 8000, now
worth 10000 — with a second detail entry for USD, so the details
mapping has more than one asset. -/
def qbIn6w : QBInput :=
  { exchanges := [("kraken", [("BTC", ⟨1, 10000⟩)])],
    blockchain := [],
    banks := [("USD", ⟨500, 500⟩)],
    details := [⟨"BTC", 0, 8000⟩, ⟨"USD", 1, 2⟩],
    errAfter := none }

/-- The snapshot returned on `qbIn6w`: BTC gets `percent_change = 25`,
USD gets `((500/500 − 2)/2)·100 = −50`. -/
def qbSnap6w : Snapshot :=
  { combined := [("BTC", { amount := 1, usd_value := 10000,
                           percentage_of_net_value := 2000/21,
                           tax_free_amount := some 0, average_buy_value := some 8000,
                           percent_change := some (PctChange.num 25) }),
                 ("USD", { amount := 500, usd_value := 500,
                           percentage_of_net_value := 100/21,
                           tax_free_amount := some 1, average_buy_value := some 2,
                           percent_change := some (PctChange.num (-50)) })],
    location := [("kraken", ⟨10000, 2000/21⟩), ("blockchain", ⟨0, 0⟩),
                 ("banks", ⟨500, 100/21⟩)],
    net_usd := 10500 }

/-- The concrete run of `query_balances` on `qbIn6w`. -/
theorem qbRun6w : query_balances qbIn6w = some qbSnap6w := by
  have hcomb : combine_stat_dicts ((balancesOf qbIn6w).map Prod.snd) =
      [("BTC", ⟨1, 10000⟩), ("USD", ⟨500, 500⟩)] := by
    simp [combine_stat_dicts, balancesOf, qbIn6w, allKeys, keysOf, dedupKeys, combineEntry,
      alookup, List.filterMap_cons]
  have hnet : (([("BTC", (⟨1, 10000⟩ : Balance)),
      ("USD", ⟨500, 500⟩)].map (fun kv => kv.2.usd_value)).sum : ℚ) = 10500 := by
    norm_num
  simp only [query_balances, hcomb, hnet]
  have hloc : mk_location ((balancesOf qbIn6w).map (fun kv => (kv.1, dict_get_sumof kv.2))) 10500 =
      some [("kraken", ⟨10000, 2000/21⟩), ("blockchain", ⟨0, 0⟩), ("banks", ⟨500, 100/21⟩)] := by
    simp [mk_location, balancesOf, qbIn6w, dict_get_sumof, fdiv, to_percentage]
    norm_num
  have hcombp : mk_combined [("BTC", (⟨1, 10000⟩ : Balance)), ("USD", ⟨500, 500⟩)] 10500 =
      some [("BTC", { amount := 1, usd_value := 10000,
                      percentage_of_net_value := 2000/21 }),
            ("USD", { amount := 500, usd_value := 500,
                      percentage_of_net_value := 100/21 })] := by
    simp [mk_combined, fdiv, to_percentage]
    norm_num
  rw [hloc, hcombp]
  simp [tax_overlay, apply_details, apply_one, alookup, fdiv, annotateEntry, setEntry,
    qbIn6w, qbSnap6w]
  norm_num

/-- The annotated BTC entry of `qbSnap6w`. -/
def ce6w : CEntry :=
  { amount := 1, usd_value := 10000, percentage_of_net_value := 2000/21,
    tax_free_amount := some 0, average_buy_value := some 8000,
    percent_change := some (PctChange.num 25) }

/-- Witness for the amended C6 at the spec's worked example, with a
two-asset details mapping. -/
theorem tax_overlay_percent_change_witness :
    ce6w.tax_free_amount = some 0 ∧ ce6w.average_buy_value = some (8000 : ℚ) ∧
    ce6w.percent_change = some (if (8000 : ℚ) = 0 then PctChange.str "INF"
      else PctChange.num (((ce6w.usd_value / ce6w.amount - 8000) / 8000) * 100)) :=
  tax_overlay_percent_change qbIn6w qbSnap6w "BTC" 0 8000 ce6w
    (by simp [qbIn6w]) (by simp [qbIn6w]) rfl qbRun6w
    (by simp [qbSnap6w, ce6w, alookup])

end Rotkelchen

namespace Rotkelchen

/-! ## Claim C8: an all-empty portfolio and the zero net_usd division -/

theorem allKeys_eq_nil (srcs : List SrcMap) (h : ∀ s ∈ srcs, s = []) : allKeys srcs = [] := by
  induction srcs with
  | nil => rfl
  | cons s t ih =>
    rw [allKeys, h s (by simp), ih (fun x hx => h x (by simp [hx]))]
    rfl

theorem mk_location_zero (x : String × ℚ) (rest : List (String × ℚ)) :
    mk_location (x :: rest) 0 = none := by
  obtain ⟨n, t⟩ := x
  simp [mk_location, fdiv]

/-- The all-empty portfolio. -/
def qbIn8 : QBInput :=
  { exchanges := [], blockchain := [], banks := [], details := [], errAfter := none }

/-- Counterexample to C8 as stated: with every source empty, `net_usd`
is 0 and `query_balances` fails on the unguarded per-location division
(modelled `none`) instead of terminating without error. -/
theorem query_balances_zero_net_usd_counterexample :
    query_balances qbIn8 = none := by
  simp [query_balances, qbIn8, balancesOf, combine_stat_dicts, allKeys, keysOf, dedupKeys,
    dict_get_sumof, mk_location, fdiv]

/-- C8 (amended): on every input in which each source contributes zero
assets, `net_usd` is 0 and `query_balances` raises in the per-location
percentage computation — the division by zero is unguarded, so the call
fails rather than terminating normally. -/
theorem query_balances_zero_net_usd_fails (inp : QBInput)
    (hb : inp.blockchain = []) (hk : inp.banks = [])
    (hx : ∀ p ∈ inp.exchanges, p.2 = ([] : SrcMap)) :
    query_balances inp = none := by
  have hsrc : ∀ s ∈ (balancesOf inp).map Prod.snd, s = [] := by
    intro s hs
    rcases List.mem_map.mp hs with ⟨p, hp, rfl⟩
    simp only [balancesOf] at hp
    rcases List.mem_append.mp hp with hpe | hpb
    · exact hx p hpe
    · simp only [List.mem_cons, List.not_mem_nil, or_false] at hpb
      rcases hpb with rfl | rfl
      · exact hb
      · exact hk
  have hcomb : combine_stat_dicts ((balancesOf inp).map Prod.snd) = [] := by
    rw [combine_stat_dicts, allKeys_eq_nil _ hsrc]
    rfl
  simp only [query_balances, hcomb, List.map_nil, List.sum_nil]
  rcases hex : inp.exchanges with _ | ⟨e, es⟩ <;>
    simp [balancesOf, hex, mk_location_zero]

/-- An input with one connected exchange holding no assets. -/
def qbIn8w : QBInput :=
  { exchanges := [("kraken", [])], blockchain := [], banks := [], details := [],
    errAfter := none }

/-- Witness for the amended C8 at `qbIn8w`. -/
theorem query_balances_zero_net_usd_fails_witness :
    query_balances qbIn8w = none :=
  query_balances_zero_net_usd_fails qbIn8w rfl rfl (by simp [qbIn8w])

end Rotkelchen
